import Mathlib

/-!
Verification of the TIAS scraping pipelines
(`tias_links_spider.py`, the Index Crawler, and `tias_pdf_spider.py`,
the Detail Extractor).

The two `parse` callbacks, seed resolution (`__init__`) and
`start_requests` are embedded as pure Lean functions.  A rendered
response is modelled as a structure carrying the final URL, the HTTP
status, the raw HTML text, and the results of the structural
(CSS/XPath) selector queries the code performs through the external
`parsel` library; the regular-expression work the spiders do over the
raw text (`re.findall`, `re.search`, `re.match`) is implemented here
character by character with Python `re` semantics for the concrete
patterns appearing in the source.  Strings are treated as their
character lists (ASCII fragment of Python's Unicode semantics).
-/

/-- ASCII model of Python's regex class `\s` / `str.strip` whitespace. -/
def pySpace (c : Char) : Bool :=
  c = ' ' || c = '\t' || c = '\n' || c = '\r' || c = '\x0b' || c = '\x0c'

/-- ASCII model of Python's regex class `\w` (word character). -/
def wordChar (c : Char) : Bool :=
  c.isAlphanum || c = '_'

/-- ASCII model of `str.lower` on a single character. -/
def pyLowerChar (c : Char) : Char :=
  if 'A' ≤ c && c ≤ 'Z' then Char.ofNat (c.toNat + 32) else c

/-- ASCII model of `str.lower`. -/
def pyLower (s : String) : String :=
  String.mk (s.data.map pyLowerChar)

/-- Strip `pySpace` characters from both ends of a character list. -/
def trimWs (l : List Char) : List Char :=
  ((l.dropWhile pySpace).reverse.dropWhile pySpace).reverse

/-- ASCII model of `str.strip()` (no argument form). -/
def pyStrip (s : String) : String :=
  String.mk (trimWs s.data)

/-- Does `needle` occur as a contiguous segment of `hay`?
Models Python's `needle in hay` on strings. -/
def occursIn (needle : List Char) : List Char → Bool
  | [] => needle.isEmpty
  | c :: t => needle.isPrefixOf (c :: t) || occursIn needle t

/-- Test `needle in hay` for strings (Python's `in` operator). -/
def strContains (hay needle : String) : Bool :=
  occursIn needle.data hay.data

/-- Python's `sep.join(parts)`. -/
def joinSep (sep : String) : List String → String
  | [] => ""
  | [x] => x
  | x :: y :: ys => x ++ sep ++ joinSep sep (y :: ys)

/-- Python's `str.split(sep)` for a one-character separator:
splits at every occurrence, keeping empty segments. -/
def pySplitChar (sep : Char) : List Char → List (List Char)
  | [] => [[]]
  | c :: t =>
    if c = sep then [] :: pySplitChar sep t
    else
      match pySplitChar sep t with
      | [] => [[c]]
      | g :: gs => (c :: g) :: gs

/-- Python's `lst[:n]` slice, including the negative-bound case
(`lst[:-k]` drops the last `k` elements). -/
def pySliceTo (l : List String) (n : Int) : List String :=
  if 0 ≤ n then l.take n.toNat else l.take (l.length - min l.length n.natAbs)

/-- Decimal value of a digit list (most significant first). -/
def digitsVal (l : List Char) : Nat :=
  l.foldl (fun a c => a * 10 + (c.toNat - 48)) 0

/-- Digit run with single underscores allowed between digit groups:
the shape `\d+(_\d+)*` accepted by Python's `int` after the sign. -/
def intDigitsOk : List Char → Bool
  | [] => false
  | '_' :: _ => false
  | [c] => c.isDigit
  | c :: rest => c.isDigit && intTailOk rest
where
  intTailOk : List Char → Bool
  | [] => true
  | '_' :: c :: rest => c.isDigit && intTailOk rest
  | '_' :: [] => false
  | c :: rest => c.isDigit && intTailOk rest

/-- Model of Python's `int(s)` for decimal strings: surrounding
whitespace, an optional sign, digits with optional single
underscores between them.  `none` models the `ValueError` branch. -/
def pyInt (s : String) : Option Int :=
  let l := trimWs s.data
  match l with
  | '+' :: t => if intDigitsOk t then some (digitsVal (t.filter (· ≠ '_'))) else none
  | '-' :: t => if intDigitsOk t then some (-(digitsVal (t.filter (· ≠ '_')) : Int)) else none
  | t => if intDigitsOk t then some (digitsVal (t.filter (· ≠ '_'))) else none

/-- Characters of a string. -/
def strChars (s : String) : List Char := s.data

/-- List-level string-prefix test (kernel-friendly, avoids byte positions). -/
def strStarts (s pre : String) : Bool :=
  pre.data.isPrefixOf s.data

/-!
## The agreement-code pattern

`re.findall(r'\b\d{2}[-\s]?\d{3,4}\b', text)` from
`tias_pdf_spider.py`.  `matchD34b` is the tail `\d{3,4}\b` with the
greedy/backtracking behaviour of Python's engine; `tryCode` attempts
the whole pattern at one position (`prevW` says whether the character
just before that position is a word character, which decides the
leading `\b`); `scanCodes` is `findall`'s left-to-right
non-overlapping scan.  The scan is written with an explicit fuel equal
to the length of the text so that it is structurally recursive and
evaluates inside the kernel.
-/

/-- Match `\d{3,4}\b` at the head of `l`, returning the digits matched
and the rest of the input.  Greedy: four digits are preferred, but a
word character right after the digits makes the boundary fail. -/
def matchD34b : List Char → Option (List Char × List Char)
  | d1 :: d2 :: d3 :: rest =>
    if d1.isDigit && d2.isDigit && d3.isDigit then
      match rest with
      | [] => some ([d1, d2, d3], [])
      | d4 :: rest2 =>
        if d4.isDigit then
          match rest2 with
          | [] => some ([d1, d2, d3, d4], [])
          | e :: _ => if wordChar e then none else some ([d1, d2, d3, d4], rest2)
        else if wordChar d4 then none
        else some ([d1, d2, d3], rest)
    else none
  | _ => none

/-- Attempt `\b\d{2}[-\s]?\d{3,4}\b` at the current position.
When the optional separator branch consumes a `-`/space and the tail
fails, the empty-separator alternative would have to start `\d{3,4}`
on that separator character, which is not a digit, so the whole
attempt fails. -/
def tryCode (prevW : Bool) : List Char → Option (List Char × List Char)
  | a :: b :: rest =>
    if prevW then none
    else if a.isDigit && b.isDigit then
      match rest with
      | [] => none
      | s :: rest2 =>
        if s = '-' || pySpace s then
          match matchD34b rest2 with
          | some (ds, rem) => some (a :: b :: s :: ds, rem)
          | none => none
        else
          match matchD34b rest with
          | some (ds, rem) => some (a :: b :: ds, rem)
          | none => none
    else none
  | _ => none

/-- Left-to-right non-overlapping scan of `findall`, fuelled. -/
def scanCodesAux : Nat → Bool → List Char → List String
  | 0, _, _ => []
  | fuel + 1, prevW, l =>
    match tryCode prevW l with
    | some (m, rem) => String.mk m :: scanCodesAux fuel true rem
    | none =>
      match l with
      | [] => []
      | c :: rest => scanCodesAux fuel (wordChar c) rest

/-- Run `findall` of the code pattern starting with the given
previous-character word status. -/
def scanCodes (prevW : Bool) (l : List Char) : List String :=
  scanCodesAux l.length prevW l

/-- Model of `re.findall(r'\b\d{2}[-\s]?\d{3,4}\b', s)`. -/
def findCodes (s : String) : List String :=
  scanCodes false s.data

/-!
## The markdown-link pattern and the strict agreement-URL shape

`re.findall(r'\((https://www\.state\.gov/[^\)]+)\)', text)` and
`re.match(r'https://www\.state\.gov/\d{2}-\d{3,4}$', link)` from
`tias_links_spider.py`.
-/

/-- The fixed URL stem `https://www.state.gov/` of the site. -/
def stateGovStem : List Char := "https://www.state.gov/".data

/-- Fuelled scan for `\((https://www\.state\.gov/[^\)]+)\)`: at an
opening parenthesis followed by the stem, the capture extends greedily
over non-`)` characters and a closing parenthesis must follow;
otherwise the scan advances one character, as `findall` does. -/
def parenScanAux : Nat → List Char → List String
  | 0, _ => []
  | _ + 1, [] => []
  | fuel + 1, c :: rest =>
    if c = '(' && stateGovStem.isPrefixOf rest then
      let after := rest.drop stateGovStem.length
      let run := after.takeWhile (fun d => d ≠ ')')
      if run.isEmpty then parenScanAux fuel rest
      else
        match after.drop run.length with
        | ')' :: tail => String.mk (stateGovStem ++ run) :: parenScanAux fuel tail
        | _ => parenScanAux fuel rest
    else parenScanAux fuel rest

/-- All captures of the markdown-style parenthesized-URL pattern. -/
def mdLinks (text : String) : List String :=
  parenScanAux text.data.length text.data

/-- Matches `\d{3,4}` followed by the anchor `$` (end of string, or
just before one final newline, as in Python). -/
def strictEndShape : List Char → Bool
  | [x, y, z] => x.isDigit && y.isDigit && z.isDigit
  | [x, y, z, w] => x.isDigit && y.isDigit && z.isDigit && (w.isDigit || w = '\n')
  | [x, y, z, w, v] => x.isDigit && y.isDigit && z.isDigit && w.isDigit && v = '\n'
  | _ => false

/-- Matches `\d{2}-` followed by `strictEndShape`. -/
def strictTailShape : List Char → Bool
  | a :: b :: s :: rest => a.isDigit && b.isDigit && (s = '-') && strictEndShape rest
  | _ => false

/-- Model of `re.match(r'https://www\.state\.gov/\d{2}-\d{3,4}$', link)`
as a Boolean: the stem, a two-digit token, a hyphen, a 3–4 digit token,
then the end anchor. -/
def strictShape (link : String) : Bool :=
  stateGovStem.isPrefixOf link.data && strictTailShape (link.data.drop stateGovStem.length)

/-!
## The title pattern

`re.search(r'class="featured-content__headline stars-above">\s*(.*?)\s*</h1>',
text, re.DOTALL)` from `tias_pdf_spider.py`.  With `re.DOTALL` the lazy
group reaches the first `</h1>` after the first occurrence of the
heading-class literal, and the surrounding `\s*` trim the captured
text, so the search is equivalent to: take the segment between the
first occurrence of the literal and the next `</h1>`, trimmed of
whitespace on both ends; no occurrence of the literal followed
(anywhere later) by `</h1>` means no match.
-/

/-- Remainder of `l` after the first occurrence of `needle`
(`none` when `needle` does not occur). -/
def segAfter (needle : List Char) : List Char → Option (List Char)
  | [] => if needle.isEmpty then some [] else none
  | c :: t =>
    if needle.isPrefixOf (c :: t) then some ((c :: t).drop needle.length)
    else segAfter needle t

/-- The part of `l` strictly before the first occurrence of `needle`
(`none` when `needle` does not occur). -/
def segBefore (needle : List Char) : List Char → Option (List Char)
  | [] => if needle.isEmpty then some [] else none
  | c :: t =>
    if needle.isPrefixOf (c :: t) then some []
    else (segBefore needle t).map (c :: ·)

/-- The heading-class literal of the title pattern. -/
def titleMarker : List Char := "class=\"featured-content__headline stars-above\">".data

/-- The closing literal of the title pattern. -/
def h1Close : List Char := "</h1>".data

/-- The `match.group(1)` of the title search: the whitespace-trimmed text
between the heading-class literal and the following `</h1>`. -/
def titleCapture (text : String) : Option String :=
  (segAfter titleMarker text.data).bind fun after =>
    (segBefore h1Close after).map fun body => String.mk (trimWs body)

/-- The title value produced by the raw-markup pattern branch:
`title_match.group(1).strip().replace('\n', '').replace('\t', '')`
when the search succeeds, `''` otherwise. -/
def titleViaRegex (text : String) : String :=
  match titleCapture text with
  | some cap => String.mk ((pyStrip cap).data.filter fun c => !(c = '\n' || c = '\t'))
  | none => ""

/-!
## `urllib.parse.urljoin`

Model of the standard-library `urljoin` (an external collaborator of
the spiders) restricted to the cases exercised here: an absolute
`http(s)` base URL and a relative reference that is empty, absolute,
protocol-relative, root-relative, or a plain relative path.  Query
strings of the base are dropped when resolving a relative path, as in
the library.
-/

/-- Everything up to and including the last `/` of `l` (empty when
`l` has no slash). -/
def upToLastSlash (l : List Char) : List Char :=
  (l.reverse.dropWhile fun c => c ≠ '/').reverse

/-- Model of `urllib.parse.urljoin base rel` for `http(s)` bases. -/
def urljoinM (base rel : String) : String :=
  if rel = "" then base
  else if strStarts rel "https://" || strStarts rel "http://" then rel
  else if strStarts rel "//" then "https:" ++ rel
  else
    let scheme : String := if strStarts base "http://" then "http://" else "https://"
    let rest := base.data.drop scheme.data.length
    let host := rest.takeWhile fun c => c ≠ '/'
    let path := (rest.drop host.length).takeWhile fun c => c ≠ '?'
    if strStarts rel "/" then String.mk (scheme.data ++ host) ++ rel
    else if path.isEmpty then String.mk (scheme.data ++ host) ++ "/" ++ rel
    else String.mk (scheme.data ++ host ++ upToLastSlash path) ++ rel

/-!
## Records, logs and responses
-/

/-- The log levels the spiders use (`self.log` defaults to debug). -/
inductive LogLevel where
  | debug
  | warning
  | error
deriving DecidableEq, Repr

/-- One `self.log(...)` call. -/
structure LogEntry where
  level : LogLevel
  msg : String
deriving DecidableEq, Repr

/-- Number of error-level entries in a log. -/
def errorCount (logs : List LogEntry) : Nat :=
  (logs.filter fun e => e.level = LogLevel.error).length

/-- Number of warning-level entries in a log. -/
def warnCount (logs : List LogEntry) : Nat :=
  (logs.filter fun e => e.level = LogLevel.warning).length

/-- One `scrapy.Request` issued by `start_requests` (rendering
instructions and headers do not vary between requests and are left to
the external framework; what matters for the claims is one request
per seed URL). -/
structure RenderRequest where
  url : String
  playwright : Bool
deriving DecidableEq, Repr

/-- One output row of the Index Crawler: `yield {'URL': link}`. -/
structure LinkItem where
  URL : String
deriving DecidableEq, Repr

/-- One output row of the Detail Extractor. -/
structure AgreementRecord where
  source_url : String
  title : String
  paragraphs : String
  agreement_codes : String
  primary_pdf : String
  other_pdfs : String
deriving DecidableEq, Repr

/-- A rendered index-page response, as `TiasLinksSpider.parse` sees
it: the final URL, HTTP status and raw text, plus the results of the
two structural selector queries the code runs through the external
`parsel` library:
`cssResultHrefs` is `response.css('ul.collection-results a.collection-result__link::attr(href)').getall()`
and `cssAllHrefs` is `response.css('a::attr(href)').getall()`
(the latter is used only for a diagnostic log line). -/
structure LinksResponse where
  url : String
  status : Nat
  text : String
  cssResultHrefs : List String
  cssAllHrefs : List String
deriving Repr

/-- A rendered detail-page response, as `TiasPdfSpider.parse` sees it.
The selector-result fields are, in order, the results of
`response.css('h1.featured-content__headline.stars-above::text')`,
`response.xpath('//p//text()').getall()`,
`response.css('a[href$=".pdf"]::text').getall()`,
`response.css('a.button--download::attr(href)')` and
`response.css('a[href$=".pdf"]::attr(href)').getall()`. -/
structure PdfResponse where
  url : String
  status : Nat
  text : String
  cssTitleTexts : List String
  xpathParaTexts : List String
  cssPdfLinkTexts : List String
  cssDownloadHrefs : List String
  cssPdfHrefs : List String
deriving Repr

/-- The blocked-response guard shared by both `parse` methods:
`'forbidden' in response.text.lower() or response.status in [403, 429]`. -/
def blockedResponse (status : Nat) (text : String) : Bool :=
  strContains (pyLower text) "forbidden" || status = 403 || status = 429

/-!
## Index Crawler: seed resolution, requests, parse
-/

/-- Index-page URL built for one year value:
`f'https://www.state.gov/{year}-TIAS/?results=200'`. -/
def yearUrlOf (year : String) : String :=
  "https://www.state.gov/" ++ year ++ "-TIAS/?results=200"

/-- Model of `TiasLinksSpider.__init__`: the year values come from the remote
CSV's `Years` column (an external input, given here as the list of its
entries as strings); `max_years`, when supplied and non-empty, is
parsed with `int` and used as `self.year_urls[:int(max_years)]`; a
`ValueError` logs a warning and keeps the full list.  Returns the
final `year_urls` and the log.  The trailing debug line reports the
number of URLs processed (the printed URL list itself is elided). -/
def linksInit (years : List String) (maxYears : Option String) :
    List String × List LogEntry :=
  let urls := years.map yearUrlOf
  let procLog := fun (us : List String) =>
    LogEntry.mk LogLevel.debug ("Processing " ++ toString us.length ++ " year URLs")
  match maxYears with
  | none => (urls, [procLog urls])
  | some s =>
    if s = "" then (urls, [procLog urls])
    else
      match pyInt s with
      | some n => (pySliceTo urls n, [procLog (pySliceTo urls n)])
      | none =>
        (urls,
         [LogEntry.mk LogLevel.warning
            ("Invalid max_years: " ++ s ++ ", processing all years"),
          procLog urls])

/-- Model of `TiasLinksSpider.start_requests`: one rendered request per year
URL. -/
def linksStartRequests (yearUrls : List String) : List RenderRequest :=
  yearUrls.map fun u => RenderRequest.mk u true

/-- The debug side-file name:
`f"debug_html/{response.url.split('/')[-2]}.html"`.  For a URL with no
slash Python would raise `IndexError` on the `[-2]` index; the model
totalises that case with segment `0`, and the theorems about `parse`
assume the URL contains a slash. -/
def debugFileNameOf (url : String) : String :=
  let segs := pySplitChar '/' url.data
  "debug_html/" ++ String.mk (segs.getD (segs.length - 2) []) ++ ".html"

/-- Whether a URL contains a slash (the side condition under which
`debugFileNameOf` is faithful). -/
def urlHasSlash (url : String) : Bool :=
  url.data.contains '/'

/-- The marker term filtering out year-index pages. -/
def yearMarker : String := "treaties-and-agreements"

/-- The filter applied to the structural-selector links:
`if link and 'treaties-and-agreements' not in link.lower()`. -/
def keepLink (link : String) : Bool :=
  link ≠ "" && !(strContains (pyLower link) yearMarker)

/-- The final link list of `TiasLinksSpider.parse` on a non-blocked
page: markdown-regex links filtered to the strict shape, extended with
the deduplicated, filtered structural links, deduplicated again.
(Python materialises `set`s in unspecified order; the model fixes one
order, and the theorems only use the result as a set.) -/
def linksExtracted (r : LinksResponse) : List String :=
  let agreementLinks := (mdLinks r.text).filter strictShape
  let cssLinks := r.cssResultHrefs.dedup
  (agreementLinks ++ cssLinks.filter keepLink).dedup

/-- The output of one `TiasLinksSpider.parse` call: the yielded
records, the log, and the debug side file (name, contents) that is
written before the blocked-response check. -/
structure LinksParseOut where
  records : List LinkItem
  logs : List LogEntry
  debugFile : String × String
deriving Repr

/-- Model of `TiasLinksSpider.parse`.  The debug log lines that print list
previews (`[:5]`-style slices) keep their counts here with the preview
text elided; levels and the URL-bearing blocked line are exact. -/
def parseLinks (r : LinksResponse) : LinksParseOut :=
  let headLogs :=
    [LogEntry.mk LogLevel.debug
       ("Processing URL: " ++ r.url ++ " (Status: " ++ toString r.status ++ ")"),
     LogEntry.mk LogLevel.debug "Response headers",
     LogEntry.mk LogLevel.debug ("Saved HTML to " ++ debugFileNameOf r.url)]
  let debugFile := (debugFileNameOf r.url, r.text)
  if blockedResponse r.status r.text then
    { records := [],
      logs := headLogs ++
        [LogEntry.mk LogLevel.error ("Blocked or forbidden response for " ++ r.url)],
      debugFile := debugFile }
  else
    let links := linksExtracted r
    { records := links.map LinkItem.mk,
      logs := headLogs ++
        [LogEntry.mk LogLevel.debug
           ("Found " ++ toString (mdLinks r.text).length ++ " markdown links, "
              ++ toString ((mdLinks r.text).filter strictShape).length ++ " valid"),
         LogEntry.mk LogLevel.debug
           ("Found " ++ toString r.cssAllHrefs.length ++ " total <a> hrefs"),
         LogEntry.mk LogLevel.debug
           ("Found " ++ toString r.cssResultHrefs.dedup.length ++ " agreement-like hrefs"),
         LogEntry.mk LogLevel.debug
           ("Total " ++ toString links.length ++ " unique agreement links")] ++
        links.map (fun link => LogEntry.mk LogLevel.debug ("Yielding link: " ++ link)),
      debugFile := debugFile }

/-!
## Detail Extractor: field extraction and parse
-/

/-- Title, as computed by `TiasPdfSpider.parse`: the raw-markup
pattern first (with newlines and tabs removed from the capture); if
that gives the empty string, the stripped structural-selector text;
empty when neither yields anything. -/
def titleOf (r : PdfResponse) : String :=
  let t := titleViaRegex r.text
  if t = "" then pyStrip (r.cssTitleTexts.headD "") else t

/-- Model of `paragraphs = [p.strip() for p in paragraph_nodes if p.strip()]`. -/
def paragraphsOf (r : PdfResponse) : List String :=
  (r.xpathParaTexts.map pyStrip).filter fun p => p ≠ ""

/-- Model of `paragraphs_text = ' | '.join(paragraphs)`. -/
def paragraphsTextOf (r : PdfResponse) : String :=
  joinSep " | " (paragraphsOf r)

/-- The deduplicated agreement-code list: the code pattern over the
joined paragraph text, extended with its matches in every PDF-link
caption, then `list(set(...))` (one canonical order for Python's
unspecified set order). -/
def agreementCodesOf (r : PdfResponse) : List String :=
  (findCodes (paragraphsTextOf r) ++ (r.cssPdfLinkTexts.map findCodes).flatten).dedup

/-- Model of `primary_pdf`: the download-button href resolved against the page
URL, empty when the selector yields nothing. -/
def primaryPdfOf (r : PdfResponse) : String :=
  let raw := r.cssDownloadHrefs.headD ""
  if raw = "" then "" else urljoinM r.url raw

/-- Field `other_pdfs` as a list: every `.pdf`-suffixed anchor href resolved
against the page URL, with values equal to `primary_pdf` removed. -/
def otherPdfsOf (r : PdfResponse) : List String :=
  (r.cssPdfHrefs.map (urljoinM r.url)).filter fun link => link ≠ primaryPdfOf r

/-- The single record `TiasPdfSpider.parse` yields for a non-blocked
page. -/
def pdfRecordOf (r : PdfResponse) : AgreementRecord :=
  { source_url := r.url,
    title := titleOf r,
    paragraphs := paragraphsTextOf r,
    agreement_codes := joinSep ", " (agreementCodesOf r),
    primary_pdf := primaryPdfOf r,
    other_pdfs := joinSep ", " (otherPdfsOf r) }

/-- The output of one `TiasPdfSpider.parse` call. -/
structure PdfParseOut where
  records : List AgreementRecord
  logs : List LogEntry
deriving Repr

/-- Model of `TiasPdfSpider.parse`.  Every `self.log` call in this spider uses
the default level, which is debug. -/
def parsePdf (r : PdfResponse) : PdfParseOut :=
  let headLogs :=
    [LogEntry.mk LogLevel.debug
       ("Processing URL: " ++ r.url ++ " (Status: " ++ toString r.status ++ ")"),
     LogEntry.mk LogLevel.debug "Response headers"]
  if blockedResponse r.status r.text then
    { records := [],
      logs := headLogs ++
        [LogEntry.mk LogLevel.debug ("Blocked or forbidden response for " ++ r.url)] }
  else
    { records := [pdfRecordOf r],
      logs := headLogs ++
        [LogEntry.mk LogLevel.debug ("Extracted title: " ++ titleOf r),
         LogEntry.mk LogLevel.debug
           ("Extracted " ++ toString (paragraphsOf r).length ++ " paragraphs"),
         LogEntry.mk LogLevel.debug
           ("Extracted agreement codes: " ++ joinSep ", " (agreementCodesOf r)),
         LogEntry.mk LogLevel.debug ("Primary PDF: " ++ primaryPdfOf r),
         LogEntry.mk LogLevel.debug
           ("Found " ++ toString (otherPdfsOf r).length ++ " other PDF links")] }

/-- The set the spec's C2 sentence describes, with the two corrections
the code forces: the union of the strict markdown links and the
structural links, keeping only links that are non-empty and free of
the year-index marker term. -/
def linkUnionAfterFilter (r : LinksResponse) : Finset String :=
  (((mdLinks r.text).filter strictShape).toFinset ∪ r.cssResultHrefs.toFinset).filter
    (fun l => keepLink l = true)

/-- The set C2 literally describes: the union with only the
year-index-marker links removed (empty links kept). -/
def linkUnionMarkerOnly (r : LinksResponse) : Finset String :=
  (((mdLinks r.text).filter strictShape).toFinset ∪ r.cssResultHrefs.toFinset).filter
    (fun l => strContains (pyLower l) yearMarker = false)

/-!
## Concrete responses and inputs used by witnesses and counterexamples
-/

/-- A small non-blocked detail page with a primary PDF and a repeated
secondary PDF link. -/
def cPdfOk : PdfResponse :=
  { url := "https://www.state.gov/16-629/"
    status := 200
    text := "<p>ok</p>"
    cssTitleTexts := []
    xpathParaTexts := ["Entered into force ", "12-345"]
    cssPdfLinkTexts := ["TIAS 16-629"]
    cssDownloadHrefs := ["/a.pdf"]
    cssPdfHrefs := ["/a.pdf", "/b.pdf", "/b.pdf"] }

/-- A non-blocked detail page whose raw markup contains the heading
pattern with embedded newline and tab. -/
def cPdfTitle : PdfResponse :=
  { url := "https://www.state.gov/10-413"
    status := 200
    text := "<h1 class=\"featured-content__headline stars-above\">\n\tAgreement on Trade\n</h1>"
    cssTitleTexts := ["ignored"]
    xpathParaTexts := []
    cssPdfLinkTexts := []
    cssDownloadHrefs := []
    cssPdfHrefs := [] }

/-- A blocked (HTTP 403) detail-page response. -/
def cPdfBlocked : PdfResponse :=
  { url := "https://www.state.gov/10-413"
    status := 403
    text := "<html>err</html>"
    cssTitleTexts := []
    xpathParaTexts := []
    cssPdfLinkTexts := []
    cssDownloadHrefs := []
    cssPdfHrefs := [] }

/-- Two detail pages whose paragraph node lists are permutations of
each other, all other inputs equal. -/
def cPdfPermA : PdfResponse :=
  { url := "https://www.state.gov/16-629/"
    status := 200
    text := "<p>x</p>"
    cssTitleTexts := []
    xpathParaTexts := ["force 99-123", "Entered 12-345"]
    cssPdfLinkTexts := ["TIAS 55-1234"]
    cssDownloadHrefs := []
    cssPdfHrefs := [] }

/-- Response `cPdfPermA` with the paragraph nodes reordered. -/
def cPdfPermB : PdfResponse :=
  { cPdfPermA with xpathParaTexts := ["Entered 12-345", "force 99-123"] }

/-- The index page of the spec's worked example: the results-list
container holds exactly the two anchors `/10-413` and
`/argentina-97-826`, and the markup has no markdown-style links. -/
def cLinksTwo : LinksResponse :=
  { url := "https://www.state.gov/2011-TIAS/?results=200"
    status := 200
    text := "<ul class=\"collection-results\"><li><a class=\"collection-result__link\" href=\"/10-413\">x</a></li><li><a class=\"collection-result__link\" href=\"/argentina-97-826\">y</a></li></ul>"
    cssResultHrefs := ["/10-413", "/argentina-97-826"]
    cssAllHrefs := ["/10-413", "/argentina-97-826"] }

/-- An index page whose results-list container holds one matching
anchor with an empty `href` attribute. -/
def cLinksEmptyHref : LinksResponse :=
  { url := "https://www.state.gov/2012-TIAS/?results=200"
    status := 200
    text := "<ul></ul>"
    cssResultHrefs := [""]
    cssAllHrefs := [""] }

/-- A blocked (HTTP 403) index-page response. -/
def cLinksBlocked : LinksResponse :=
  { url := "https://www.state.gov/2011-TIAS/?results=200"
    status := 403
    text := "stop"
    cssResultHrefs := ["/10-413"]
    cssAllHrefs := [] }

/-- A three-year seed list. -/
def years3 : List String := ["2020", "2021", "2022"]

/-!
## Helper lemmas: substring occurrence, lowering, the strict shape
-/

theorem occursIn_iff (n l : List Char) : occursIn n l = true ↔ n <:+: l := by
  induction l with
  | nil =>
    simp [occursIn, List.isEmpty_iff]
  | cons c t ih =>
    rw [occursIn, Bool.or_eq_true, List.isPrefixOf_iff_prefix, ih, List.infix_cons_iff]

theorem strContains_append_self (pre s : String) :
    strContains (pre ++ s) s = true := by
  rw [strContains, occursIn_iff, String.data_append]
  exact (List.suffix_append pre.data s.data).isInfix

theorem pyLowerChar_digit {c : Char} (h : c.isDigit = true) : pyLowerChar c = c := by
  rw [pyLowerChar, if_neg]
  simp only [Char.isDigit, Bool.and_eq_true, decide_eq_true_eq] at h
  rw [Bool.and_eq_true]
  rintro ⟨h1, -⟩
  rw [decide_eq_true_eq] at h1
  have h2 : c.val.toNat ≤ 57 := h.2
  have h3 : 65 ≤ c.val.toNat := h1
  omega

/-- The characters a strict-shape link may have after the stem. -/
def tailChar (c : Char) : Prop :=
  c.isDigit = true ∨ c = '-' ∨ c = '\n'

theorem tailChar_lower {c : Char} (h : tailChar c) : pyLowerChar c = c := by
  rcases h with h | h | h
  · exact pyLowerChar_digit h
  · rw [h]; decide
  · rw [h]; decide

theorem strictEndShape_tailChar {l : List Char} (h : strictEndShape l = true) :
    ∀ c ∈ l, tailChar c := by
  rcases l with _ | ⟨x, _ | ⟨y, _ | ⟨z, _ | ⟨w, _ | ⟨v, _ | ⟨u, rest⟩⟩⟩⟩⟩⟩
  · simp [strictEndShape] at h
  · simp [strictEndShape] at h
  · simp [strictEndShape] at h
  · simp only [strictEndShape, Bool.and_eq_true] at h
    intro c hc
    simp only [List.mem_cons, List.not_mem_nil, or_false] at hc
    rcases hc with rfl | rfl | rfl
    exacts [Or.inl h.1.1, Or.inl h.1.2, Or.inl h.2]
  · simp only [strictEndShape, Bool.and_eq_true, Bool.or_eq_true] at h
    intro c hc
    simp only [List.mem_cons, List.not_mem_nil, or_false] at hc
    rcases hc with rfl | rfl | rfl | rfl
    · exact Or.inl h.1.1.1
    · exact Or.inl h.1.1.2
    · exact Or.inl h.1.2
    · rcases h.2 with hd | hn
      · exact Or.inl hd
      · exact Or.inr (Or.inr (by simpa using hn))
  · simp only [strictEndShape, Bool.and_eq_true] at h
    intro c hc
    simp only [List.mem_cons, List.not_mem_nil, or_false] at hc
    rcases hc with rfl | rfl | rfl | rfl | rfl
    · exact Or.inl h.1.1.1.1
    · exact Or.inl h.1.1.1.2
    · exact Or.inl h.1.1.2
    · exact Or.inl h.1.2
    · exact Or.inr (Or.inr (by simpa using h.2))
  · simp [strictEndShape] at h

theorem strictTailShape_tailChar {l : List Char} (h : strictTailShape l = true) :
    ∀ c ∈ l, tailChar c := by
  rcases l with _ | ⟨a, _ | ⟨b, _ | ⟨s, rest⟩⟩⟩
  · simp [strictTailShape] at h
  · simp [strictTailShape] at h
  · simp [strictTailShape] at h
  · simp only [strictTailShape, Bool.and_eq_true, decide_eq_true_eq] at h
    intro c hc
    simp only [List.mem_cons] at hc
    rcases hc with rfl | rfl | rfl | hc
    · exact Or.inl h.1.1.1
    · exact Or.inl h.1.1.2
    · exact Or.inr (Or.inl h.1.2)
    · exact strictEndShape_tailChar h.2 c hc

theorem strictShape_decomp {link : String} (h : strictShape link = true) :
    ∃ t, link.data = stateGovStem ++ t ∧ ∀ c ∈ t, tailChar c := by
  rw [strictShape, Bool.and_eq_true, List.isPrefixOf_iff_prefix] at h
  obtain ⟨⟨t, ht⟩, htail⟩ := h
  refine ⟨t, ht.symm, ?_⟩
  rw [← ht, List.drop_left] at htail
  exact strictTailShape_tailChar htail

theorem marker_not_in_stem_tail {t : List Char} (ht : ∀ c ∈ t, tailChar c) :
    occursIn yearMarker.data (stateGovStem ++ t) = false := by
  by_contra hcon
  rw [Bool.not_eq_false, occursIn_iff] at hcon
  obtain ⟨s, e, hse⟩ := hcon
  have hm : yearMarker.data.length = 23 := by decide
  have hstem : stateGovStem.length = 22 := by decide
  have hL : s.length + yearMarker.data.length + e.length
      = stateGovStem.length + t.length := by
    have := congrArg List.length hse
    simpa [List.length_append, Nat.add_assoc] using this
  have htlen : s.length < t.length := by omega
  have e1 : (s ++ yearMarker.data ++ e)[s.length + 22]? = some 's' := by
    rw [List.append_assoc, List.getElem?_append_right (by omega)]
    have h22 : s.length + 22 - s.length = 22 := by omega
    rw [h22, List.getElem?_append]
    rw [if_pos (by omega)]
    decide
  have e2 : (stateGovStem ++ t)[s.length + 22]? = t[s.length]? := by
    rw [List.getElem?_append_right (by omega)]
    have h22 : s.length + 22 - stateGovStem.length = s.length := by omega
    rw [h22]
  rw [hse, e2] at e1
  have hmem : 's' ∈ t := by
    obtain ⟨hb, he⟩ := List.getElem?_eq_some.mp e1
    exact he ▸ List.getElem_mem hb
  have hns : ¬ tailChar 's' := by
    rintro (hx | hx | hx)
    · exact absurd hx (by decide)
    · exact absurd hx (by decide)
    · exact absurd hx (by decide)
  exact hns (ht 's' hmem)

/-- A strict-shape markdown link survives the structural-link filter:
it is non-empty and its lowering does not contain the year-index
marker term. -/
theorem strictShape_keepLink {link : String} (h : strictShape link = true) :
    keepLink link = true := by
  obtain ⟨t, hdata, htail⟩ := strictShape_decomp h
  have hstem : stateGovStem.length = 22 := by decide
  have hlower : (pyLower link).data = stateGovStem ++ t.map pyLowerChar := by
    rw [pyLower, hdata, List.map_append]
    congr 1
  have hne : link ≠ "" := by
    intro he
    have hlen := congrArg List.length hdata
    rw [he] at hlen
    rw [show ("" : String).data.length = 0 from rfl, List.length_append, hstem] at hlen
    omega
  rw [keepLink, Bool.and_eq_true]
  refine ⟨by simpa using hne, ?_⟩
  rw [Bool.not_eq_eq_eq_not, Bool.not_true]
  rw [strContains, hlower]
  apply marker_not_in_stem_tail
  intro c hc
  obtain ⟨d, hd, rfl⟩ := List.mem_map.mp hc
  rw [tailChar_lower (htail d hd)]
  exact htail d hd

/-!
## Claim theorems
-/

/-- C1: for every non-blocked detail page, each `.pdf`-suffixed anchor
href is resolved against the page URL and the record's `other_pdfs`
list never contains a string equal to the (non-empty) `primary_pdf`
value, by exact-match exclusion. -/
theorem c1_primary_pdf_excluded (r : PdfResponse)
    (hb : blockedResponse r.status r.text = false)
    (_hp : (pdfRecordOf r).primary_pdf ≠ "") :
    (parsePdf r).records = [pdfRecordOf r] ∧
      otherPdfsOf r
        = (r.cssPdfHrefs.map (urljoinM r.url)).filter (fun link => link ≠ primaryPdfOf r) ∧
      (pdfRecordOf r).other_pdfs = joinSep ", " (otherPdfsOf r) ∧
      (pdfRecordOf r).primary_pdf ∉ otherPdfsOf r := by
  refine ⟨by simp [parsePdf, hb], rfl, rfl, ?_⟩
  have hpr : (pdfRecordOf r).primary_pdf = primaryPdfOf r := rfl
  rw [hpr, otherPdfsOf]
  intro hmem
  rw [List.mem_filter] at hmem
  have := hmem.2
  simp at this

/-- Witness for C1 at a concrete page. -/
theorem c1_primary_pdf_excluded_witness :
    blockedResponse cPdfOk.status cPdfOk.text = false ∧
      (pdfRecordOf cPdfOk).primary_pdf = "https://www.state.gov/a.pdf" ∧
      (pdfRecordOf cPdfOk).primary_pdf ∉ otherPdfsOf cPdfOk ∧
      otherPdfsOf cPdfOk
        = ["https://www.state.gov/b.pdf", "https://www.state.gov/b.pdf"] := by
  have h := c1_primary_pdf_excluded cPdfOk (by decide) (by decide)
  exact ⟨by decide, by decide, h.2.2.2, by decide⟩

/-- C8: the title field comes from the raw-markup heading pattern
(newlines and tabs stripped); exactly when that yields nothing, the
structural selector text is used; when neither yields anything the
title is the empty string. -/
theorem c8_title_extraction (r : PdfResponse)
    (hb : blockedResponse r.status r.text = false) :
    (parsePdf r).records = [pdfRecordOf r] ∧
      (titleViaRegex r.text ≠ "" → (pdfRecordOf r).title = titleViaRegex r.text) ∧
      (titleViaRegex r.text = "" →
        (pdfRecordOf r).title = pyStrip (r.cssTitleTexts.headD "")) ∧
      (titleViaRegex r.text = "" → pyStrip (r.cssTitleTexts.headD "") = "" →
        (pdfRecordOf r).title = "") := by
  have hT : (pdfRecordOf r).title
      = (if titleViaRegex r.text = "" then pyStrip (r.cssTitleTexts.headD "")
         else titleViaRegex r.text) := rfl
  refine ⟨by simp [parsePdf, hb], ?_, ?_, ?_⟩
  · intro h
    rw [hT, if_neg h]
  · intro h
    rw [hT, if_pos h]
  · intro h h2
    rw [hT, if_pos h, h2]

/-- Witness for C8 at a concrete page whose markup matches the raw
pattern with an embedded newline and tab. -/
theorem c8_title_extraction_witness :
    titleViaRegex cPdfTitle.text = "Agreement on Trade" ∧
      (pdfRecordOf cPdfTitle).title = "Agreement on Trade" := by
  have ht : titleViaRegex cPdfTitle.text = "Agreement on Trade" := by decide
  have h := c8_title_extraction cPdfTitle (by decide)
  exact ⟨ht, (h.2.1 (by rw [ht]; decide)).trans ht⟩

/-- C9: the debug side file (named from the URL path segment) is
written for every parsed index-page response before the blocked check,
so a blocked page still produces the file while yielding no records.
(The URL is assumed to contain a slash; on a slashless URL the Python
code would raise `IndexError` instead.) -/
theorem c9_debug_file_written_when_blocked (r : LinksResponse)
    (_hs : urlHasSlash r.url = true)
    (hb : blockedResponse r.status r.text = true) :
    (parseLinks r).debugFile = (debugFileNameOf r.url, r.text) ∧
      (parseLinks r).records = [] := by
  constructor
  · rw [parseLinks]
    by_cases h : blockedResponse r.status r.text <;> simp [h]
  · simp [parseLinks, hb]

/-- Witness for C9 at a concrete blocked index page. -/
theorem c9_debug_file_written_when_blocked_witness :
    (parseLinks cLinksBlocked).debugFile = ("debug_html/2011-TIAS.html", "stop") ∧
      (parseLinks cLinksBlocked).records = [] := by
  have h := c9_debug_file_written_when_blocked cLinksBlocked (by decide) (by decide)
  exact ⟨h.1.trans (by decide), h.2⟩

/-- C10: `other_pdfs` preserves the document encounter order of the
resolved `.pdf` anchor hrefs (it is a sublist of them) and retains
duplicates (counts of non-primary values are preserved); no
deduplication is applied. -/
theorem c10_other_pdfs_order_duplicates (r : PdfResponse)
    (hb : blockedResponse r.status r.text = false) :
    (parsePdf r).records = [pdfRecordOf r] ∧
      (pdfRecordOf r).other_pdfs = joinSep ", " (otherPdfsOf r) ∧
      (otherPdfsOf r).Sublist (r.cssPdfHrefs.map (urljoinM r.url)) ∧
      ∀ u, u ≠ primaryPdfOf r →
        (otherPdfsOf r).count u = ((r.cssPdfHrefs.map (urljoinM r.url))).count u := by
  refine ⟨by simp [parsePdf, hb], rfl, List.filter_sublist _, ?_⟩
  intro u hu
  rw [otherPdfsOf]
  exact List.count_filter (by simpa using hu)

/-- Witness for C10: on `cPdfOk` the duplicated secondary link is kept
twice, in encounter order. -/
theorem c10_other_pdfs_order_duplicates_witness :
    (otherPdfsOf cPdfOk).Sublist (cPdfOk.cssPdfHrefs.map (urljoinM cPdfOk.url)) ∧
      (otherPdfsOf cPdfOk).count "https://www.state.gov/b.pdf" = 2 ∧
      (pdfRecordOf cPdfOk).other_pdfs
        = "https://www.state.gov/b.pdf, https://www.state.gov/b.pdf" := by
  have h := c10_other_pdfs_order_duplicates cPdfOk (by decide)
  refine ⟨h.2.2.1, ?_, by decide⟩
  rw [h.2.2.2 "https://www.state.gov/b.pdf" (by decide)]
  decide

/-- C5: a year limit that parses as a positive integer truncates the
seed list to `min N total` (so exactly `N` when `N` is at most the
number of available years), with one render request per seed URL;
with no limit, one request per available year. -/
theorem c5_year_limit_requests (years : List String) (s : String) (n : Int)
    (hp : pyInt s = some n) (hpos : 0 < n) :
    (linksInit years (some s)).1.length = min n.toNat years.length ∧
      (linksStartRequests (linksInit years (some s)).1).length
        = min n.toNat years.length ∧
      (linksInit years none).1.length = years.length ∧
      (linksStartRequests (linksInit years none).1).length = years.length := by
  have hs : s ≠ "" := by
    rintro rfl
    rw [show pyInt "" = none from rfl] at hp
    exact Option.noConfusion hp
  have h1 : (linksInit years (some s)).1 = pySliceTo (years.map yearUrlOf) n := by
    simp [linksInit, hs, hp]
  have h2 : (pySliceTo (years.map yearUrlOf) n).length = min n.toNat years.length := by
    rw [pySliceTo, if_pos (le_of_lt hpos)]
    simp [List.length_take]
  refine ⟨h1 ▸ h2, ?_, by simp [linksInit], by simp [linksInit, linksStartRequests]⟩
  rw [linksStartRequests, List.length_map, h1, h2]

/-- Witness for C5 with three years and limit `2`. -/
theorem c5_year_limit_requests_witness :
    (linksInit years3 (some "2")).1.length = 2 ∧
      (linksStartRequests (linksInit years3 (some "2")).1).length = 2 ∧
      (linksInit years3 none).1.length = 3 ∧
      (linksStartRequests (linksInit years3 none).1).length = 3 := by
  have h := c5_year_limit_requests years3 "2" 2 (by decide) (by decide)
  simpa using h

/-- C6 corrected: only a limit value that fails integer parsing (and
is non-empty) is recovered with a warning and the full year list; a
value parsing to zero silently yields an empty seed list, a negative
value silently truncates from the end (Python slice semantics), and
an empty string is treated as absent (full list, no warning). -/
theorem c6_invalid_limit_behaviour (years : List String) (s t : String) (n : Int)
    (hs : pyInt s = none) (hs0 : s ≠ "")
    (ht : pyInt t = some n) (hn : n ≤ 0) :
    (linksInit years (some s)).1 = years.map yearUrlOf ∧
      warnCount (linksInit years (some s)).2 = 1 ∧
      warnCount (linksInit years (some t)).2 = 0 ∧
      (n = 0 → (linksInit years (some t)).1 = []) ∧
      (n < 0 → (linksInit years (some t)).1.length
          = years.length - min years.length n.natAbs) ∧
      (linksInit years (some "")).1 = years.map yearUrlOf ∧
      warnCount (linksInit years (some "")).2 = 0 := by
  have ht0 : t ≠ "" := by
    rintro rfl
    rw [show pyInt "" = none from rfl] at ht
    exact Option.noConfusion ht
  refine ⟨by simp [linksInit, hs0, hs], ?_, ?_, ?_, ?_, by simp [linksInit], ?_⟩
  · simp [linksInit, hs0, hs, warnCount]
  · simp [linksInit, ht0, ht, warnCount]
  · rintro rfl
    simp [linksInit, ht0, ht, pySliceTo]
  · intro hneg
    have : ¬ (0 ≤ n) := by omega
    simp [linksInit, ht0, ht, pySliceTo, this, List.length_take]
  · simp [linksInit, warnCount]

/-- Witness for C6 at `s = "zz"`, `t = "0"` over two years. -/
theorem c6_invalid_limit_behaviour_witness :
    (linksInit ["2020", "2021"] (some "zz")).1
        = ["https://www.state.gov/2020-TIAS/?results=200",
           "https://www.state.gov/2021-TIAS/?results=200"] ∧
      warnCount (linksInit ["2020", "2021"] (some "zz")).2 = 1 ∧
      warnCount (linksInit ["2020", "2021"] (some "0")).2 = 0 ∧
      (linksInit ["2020", "2021"] (some "0")).1 = [] := by
  have h := c6_invalid_limit_behaviour ["2020", "2021"] "zz" "0" 0
    (by decide) (by decide) (by decide) (by decide)
  exact ⟨h.1.trans (by decide), h.2.1, h.2.2.1, h.2.2.2.1 rfl⟩

/-- C6 counterexample: `"0"` is a supplied limit that is not a valid
positive-integer restriction, yet the crawler neither warns nor
processes the full list — it processes no years at all. -/
theorem c6_counterexample :
    pyInt "0" = some 0 ∧
      (linksInit ["2020", "2021"] (some "0")).1 = [] ∧
      warnCount (linksInit ["2020", "2021"] (some "0")).2 = 0 := by
  exact ⟨by decide, by decide, by decide⟩

set_option maxRecDepth 4000 in
/-- C4 counterexample: on the spec's example index page the two
emitted records carry the hrefs exactly as written, not joined onto
the site domain. -/
theorem c4_counterexample :
    (parseLinks cLinksTwo).records.length = 2 ∧
      "https://www.state.gov/10-413"
          ∉ (parseLinks cLinksTwo).records.map LinkItem.URL ∧
      "https://www.state.gov/argentina-97-826"
          ∉ (parseLinks cLinksTwo).records.map LinkItem.URL := by
  exact ⟨by decide, by decide, by decide⟩

set_option maxRecDepth 4000 in
/-- C4 corrected: the crawler emits exactly two records for the
example page, whose URL values are the two hrefs as they appear in the
markup (relative, not domain-joined), in unspecified order. -/
theorem c4_two_records_raw_hrefs :
    (parseLinks cLinksTwo).records.length = 2 ∧
      ((parseLinks cLinksTwo).records.map LinkItem.URL).toFinset
        = {"/10-413", "/argentina-97-826"} := by
  exact ⟨by decide, by decide⟩

/-- C2 corrected: on a non-blocked index page the crawler emits
exactly one record per element of the union of the strict markdown
links and the structural-container links, after removing empty links
and links containing the year-index marker term (case-insensitively);
the final list is duplicate-free.  (The code applies the marker filter
only to the structural links, but strict markdown links can never
contain the marker term, so filtering the union is equivalent.) -/
theorem c2_union_dedup_emission (r : LinksResponse)
    (hb : blockedResponse r.status r.text = false) :
    (parseLinks r).records = (linksExtracted r).map LinkItem.mk ∧
      (linksExtracted r).Nodup ∧
      (linksExtracted r).toFinset = linkUnionAfterFilter r := by
  refine ⟨by simp [parseLinks, hb], List.nodup_dedup _, ?_⟩
  ext a
  simp only [linksExtracted, linkUnionAfterFilter, List.mem_toFinset, List.mem_dedup,
    List.mem_append, List.mem_filter, Finset.mem_filter, Finset.mem_union]
  constructor
  · rintro (⟨hm, hshape⟩ | ⟨hc, hk⟩)
    · exact ⟨Or.inl ⟨hm, hshape⟩, strictShape_keepLink hshape⟩
    · exact ⟨Or.inr hc, hk⟩
  · rintro ⟨h | h, hk⟩
    · exact Or.inl h
    · exact Or.inr ⟨h, hk⟩

set_option maxRecDepth 4000 in
/-- Witness for C2 on the concrete two-anchor index page. -/
theorem c2_union_dedup_emission_witness :
    (parseLinks cLinksTwo).records = (linksExtracted cLinksTwo).map LinkItem.mk ∧
      (linksExtracted cLinksTwo).Nodup ∧
      (linksExtracted cLinksTwo).toFinset = linkUnionAfterFilter cLinksTwo :=
  c2_union_dedup_emission cLinksTwo (by decide)

/-- C2 counterexample: with one matching anchor whose href attribute
is empty, the union after removing only marker-term links has one
element, yet the crawler emits no record, because the code also drops
empty links. -/
theorem c2_counterexample :
    blockedResponse cLinksEmptyHref.status cLinksEmptyHref.text = false ∧
      (linkUnionMarkerOnly cLinksEmptyHref).card = 1 ∧
      (parseLinks cLinksEmptyHref).records = [] :=
  ⟨by decide, by decide, by decide⟩

/-- C3 corrected: a blocked response produces zero records in both
pipelines, before any extraction is attempted (the outcome does not
depend on any selector result).  The Index Crawler logs exactly one
error-level line referencing the URL; the Detail Extractor logs its
blocked line at the default debug level, so it produces zero
error-level lines. -/
theorem c3_blocked_handling (rl : LinksResponse) (rp : PdfResponse)
    (hbl : blockedResponse rl.status rl.text = true)
    (hbp : blockedResponse rp.status rp.text = true) :
    (parseLinks rl).records = [] ∧
      (parseLinks rl).logs.filter (fun e => e.level = LogLevel.error)
        = [LogEntry.mk LogLevel.error ("Blocked or forbidden response for " ++ rl.url)] ∧
      strContains ("Blocked or forbidden response for " ++ rl.url) rl.url = true ∧
      parseLinks rl = parseLinks { rl with cssResultHrefs := [], cssAllHrefs := [] } ∧
      (parsePdf rp).records = [] ∧
      errorCount (parsePdf rp).logs = 0 ∧
      (parsePdf rp).logs.getLast?
        = some (LogEntry.mk LogLevel.debug
            ("Blocked or forbidden response for " ++ rp.url)) ∧
      strContains ("Blocked or forbidden response for " ++ rp.url) rp.url = true ∧
      parsePdf rp = parsePdf
        { rp with
          cssTitleTexts := []
          xpathParaTexts := []
          cssPdfLinkTexts := []
          cssDownloadHrefs := []
          cssPdfHrefs := [] } := by
  refine ⟨by simp [parseLinks, hbl], ?_, strContains_append_self _ _, ?_,
    by simp [parsePdf, hbp], ?_, ?_, strContains_append_self _ _, ?_⟩
  · simp [parseLinks, hbl, List.filter]
  · simp [parseLinks, hbl]
  · simp [parsePdf, hbp, errorCount, List.filter]
  · simp [parsePdf, hbp]
  · simp [parsePdf, hbp]

/-- Witness for C3 at concrete blocked responses for both pipelines. -/
theorem c3_blocked_handling_witness :
    (parseLinks cLinksBlocked).records = [] ∧
      errorCount (parseLinks cLinksBlocked).logs = 1 ∧
      (parsePdf cPdfBlocked).records = [] ∧
      errorCount (parsePdf cPdfBlocked).logs = 0 := by
  have h := c3_blocked_handling cLinksBlocked cPdfBlocked (by decide) (by decide)
  exact ⟨h.1, by decide, h.2.2.2.2.1, h.2.2.2.2.2.1⟩

/-- C3 counterexample: a blocked detail page yields zero output rows
but also zero error-level log lines — the blocked log line of the
Detail Extractor is emitted at the default (debug) level, against the
claim's exactly-one-error-line requirement. -/
theorem c3_counterexample :
    blockedResponse cPdfBlocked.status cPdfBlocked.text = true ∧
      (parsePdf cPdfBlocked).records = [] ∧
      errorCount (parsePdf cPdfBlocked).logs = 0 ∧
      ¬ errorCount (parsePdf cPdfBlocked).logs = 1 :=
  ⟨by decide, by decide, by decide, by decide⟩

/-!
## C7 machinery: the code scan distributes over the ` | ` separator

No match of the code pattern can span the ` | ` join separator (after
an optional separator character the pattern needs a digit, but the
character after the space is `|`), so `findall` over the joined
paragraph text is the concatenation of the per-paragraph `findall`s;
permuting the paragraphs therefore permutes the pooled match list and
leaves the deduplicated set unchanged.
-/

theorem matchD34b_length {l ds rem : List Char}
    (h : matchD34b l = some (ds, rem)) : rem.length + 3 ≤ l.length := by
  rcases l with _ | ⟨d1, _ | ⟨d2, _ | ⟨d3, _ | ⟨d4, _ | ⟨e, rest3⟩⟩⟩⟩⟩
  · simp [matchD34b] at h
  · simp [matchD34b] at h
  · simp [matchD34b] at h
  · simp only [matchD34b] at h
    split_ifs at h
    · simp only [Option.some.injEq, Prod.mk.injEq] at h
      obtain ⟨-, rfl⟩ := h
      simp
  · simp only [matchD34b] at h
    split_ifs at h
    · simp only [Option.some.injEq, Prod.mk.injEq] at h
      obtain ⟨-, rfl⟩ := h
      simp
    · simp only [Option.some.injEq, Prod.mk.injEq] at h
      obtain ⟨-, rfl⟩ := h
      simp
  · simp only [matchD34b] at h
    split_ifs at h
    · simp only [Option.some.injEq, Prod.mk.injEq] at h
      obtain ⟨-, rfl⟩ := h
      simp only [List.length_cons]
      omega
    · simp only [Option.some.injEq, Prod.mk.injEq] at h
      obtain ⟨-, rfl⟩ := h
      simp only [List.length_cons]
      omega

theorem tryCode_length {w : Bool} {l m rem : List Char}
    (h : tryCode w l = some (m, rem)) : rem.length < l.length := by
  rcases l with _ | ⟨a, _ | ⟨b, _ | ⟨s, rest2⟩⟩⟩
  · simp [tryCode] at h
  · simp [tryCode] at h
  · simp [tryCode] at h
  · simp only [tryCode] at h
    split_ifs at h
    · cases hm : matchD34b rest2 with
      | none => rw [hm] at h; exact absurd h (by simp)
      | some p =>
        obtain ⟨ds, rem2⟩ := p
        rw [hm] at h
        simp only [Option.some.injEq, Prod.mk.injEq] at h
        obtain ⟨-, rfl⟩ := h
        have := matchD34b_length hm
        simp only [List.length_cons]
        omega
    · cases hm : matchD34b (s :: rest2) with
      | none => rw [hm] at h; exact absurd h (by simp)
      | some p =>
        obtain ⟨ds, rem2⟩ := p
        rw [hm] at h
        simp only [Option.some.injEq, Prod.mk.injEq] at h
        obtain ⟨-, rfl⟩ := h
        have := matchD34b_length hm
        simp only [List.length_cons] at this ⊢
        omega

theorem scanCodesAux_nil (f : Nat) (w : Bool) : scanCodesAux f w [] = [] := by
  cases f <;> rfl

theorem scanCodesAux_succ (f : Nat) (w : Bool) (l : List Char) :
    scanCodesAux (f + 1) w l =
      match tryCode w l with
      | some (m, rem) => String.mk m :: scanCodesAux f true rem
      | none =>
        match l with
        | [] => []
        | c :: rest => scanCodesAux f (wordChar c) rest := rfl

theorem scanCodesAux_fuel :
    ∀ (f1 : Nat) (f2 : Nat) (w : Bool) (l : List Char),
      l.length ≤ f1 → l.length ≤ f2 → scanCodesAux f1 w l = scanCodesAux f2 w l := by
  intro f1
  induction f1 with
  | zero =>
    intro f2 w l h1 _
    have hl : l = [] := List.length_eq_zero.mp (Nat.le_zero.mp h1)
    subst hl
    rw [scanCodesAux_nil, scanCodesAux_nil]
  | succ f1 ih =>
    intro f2 w l h1 h2
    rcases l with _ | ⟨c, rest⟩
    · rw [scanCodesAux_nil, scanCodesAux_nil]
    · rcases f2 with _ | f2
      · exact absurd h2 (by simp)
      · simp only [List.length_cons] at h1 h2
        rw [scanCodesAux_succ, scanCodesAux_succ]
        cases htc : tryCode w (c :: rest) with
        | some p =>
          obtain ⟨m, rem⟩ := p
          have hlen := tryCode_length htc
          simp only [List.length_cons] at hlen
          simp only
          rw [ih f2 true rem (by omega) (by omega)]
        | none =>
          simp only
          exact ih f2 (wordChar c) rest (by omega) (by omega)

theorem scanCodes_cons_none {w : Bool} {c : Char} {rest : List Char}
    (h : tryCode w (c :: rest) = none) :
    scanCodes w (c :: rest) = scanCodes (wordChar c) rest := by
  rw [scanCodes, scanCodes, List.length_cons, scanCodesAux_succ, h]

theorem scanCodes_cons_some {w : Bool} {l m rem : List Char}
    (h : tryCode w l = some (m, rem)) :
    scanCodes w l = String.mk m :: scanCodes true rem := by
  have hlen := tryCode_length h
  rcases l with _ | ⟨c, rest⟩
  · simp [tryCode] at h
  · rw [scanCodes, scanCodes, List.length_cons, scanCodesAux_succ, h]
    show String.mk m :: scanCodesAux rest.length true rem = _
    simp only [List.length_cons] at hlen
    rw [scanCodesAux_fuel rest.length rem.length true rem (by omega) le_rfl]

theorem matchD34b_not_digit_head {c : Char} (hc : c.isDigit = false) (l : List Char) :
    matchD34b (c :: l) = none := by
  rcases l with _ | ⟨x, _ | ⟨y, _ | ⟨z, _ | ⟨w, t⟩⟩⟩⟩ <;> simp [matchD34b, hc]

theorem matchD34b_not_digit_snd {a c : Char} (hc : c.isDigit = false) (l : List Char) :
    matchD34b (a :: c :: l) = none := by
  rcases l with _ | ⟨x, _ | ⟨y, _ | ⟨z, t⟩⟩⟩ <;> simp [matchD34b, hc]

theorem matchD34b_not_digit_trd {a b c : Char} (hc : c.isDigit = false) (l : List Char) :
    matchD34b (a :: b :: c :: l) = none := by
  rcases l with _ | ⟨x, _ | ⟨y, t⟩⟩ <;> simp [matchD34b, hc]

theorem matchD34b_append (l q : List Char) :
    matchD34b (l ++ ' ' :: q)
      = Option.map (fun p => (p.1, p.2 ++ ' ' :: q)) (matchD34b l) := by
  have hsp : (' ').isDigit = false := by decide
  have hwsp : wordChar ' ' = false := by decide
  rcases l with _ | ⟨d1, _ | ⟨d2, _ | ⟨d3, _ | ⟨d4, _ | ⟨e, rest3⟩⟩⟩⟩⟩
  · rw [List.nil_append, matchD34b_not_digit_head hsp]
    rfl
  · simp only [List.cons_append, List.nil_append]
    rw [matchD34b_not_digit_snd hsp]
    rfl
  · simp only [List.cons_append, List.nil_append]
    rw [matchD34b_not_digit_trd hsp]
    rfl
  · rcases q with _ | ⟨q1, qt⟩ <;> simp [matchD34b, hsp, hwsp]
  · simp [matchD34b, hsp, hwsp]
    split_ifs <;> simp
  · simp only [List.cons_append, matchD34b]
    split_ifs <;> simp

theorem tryCode_not_digit_head {w : Bool} {c : Char} (hc : c.isDigit = false)
    (l : List Char) : tryCode w (c :: l) = none := by
  rcases l with _ | ⟨b, _ | ⟨s, rest2⟩⟩ <;> simp [tryCode, hc]

theorem tryCode_not_digit_snd {w : Bool} {a c : Char} (hc : c.isDigit = false)
    (l : List Char) : tryCode w (a :: c :: l) = none := by
  rcases l with _ | ⟨s, rest2⟩ <;> simp [tryCode, hc]

theorem tryCode_append (w : Bool) (l q : List Char) :
    tryCode w (l ++ ' ' :: '|' :: ' ' :: q)
      = Option.map (fun p => (p.1, p.2 ++ ' ' :: '|' :: ' ' :: q)) (tryCode w l) := by
  have hsp : (' ').isDigit = false := by decide
  have hpipe : ('|').isDigit = false := by decide
  rcases l with _ | ⟨a, _ | ⟨b, _ | ⟨s, rest2⟩⟩⟩
  · rw [List.nil_append, tryCode_not_digit_head hsp]
    rfl
  · simp only [List.cons_append, List.nil_append]
    rw [tryCode_not_digit_snd hsp]
    rfl
  · simp only [List.cons_append, List.nil_append]
    simp [tryCode, pySpace, matchD34b_not_digit_head hpipe]
  · simp only [List.cons_append, tryCode]
    have hrw1 := matchD34b_append rest2 ('|' :: ' ' :: q)
    have hrw2 := matchD34b_append (s :: rest2) ('|' :: ' ' :: q)
    simp only [List.cons_append] at hrw2
    rw [hrw1, hrw2]
    split_ifs with hw hab hsep
    · rfl
    · cases hm : matchD34b rest2 with
      | none => simp [hm]
      | some p =>
        obtain ⟨ds, rem⟩ := p
        simp [hm]
    · cases hm : matchD34b (s :: rest2) with
      | none => simp [hm]
      | some p =>
        obtain ⟨ds, rem⟩ := p
        simp [hm]
    · rfl

theorem scanCodes_sep_head (w : Bool) (q : List Char) :
    scanCodes w (' ' :: '|' :: ' ' :: q) = scanCodes false q := by
  rw [scanCodes_cons_none (tryCode_not_digit_head (by decide) _)]
  rw [scanCodes_cons_none (tryCode_not_digit_head (by decide) _)]
  have h3 : tryCode (wordChar '|') (' ' :: q) = none := by
    rcases q with _ | ⟨c, t⟩
    · rfl
    · exact tryCode_not_digit_head (by decide) _
  rw [scanCodes_cons_none h3]
  rw [show wordChar ' ' = false from by decide]

theorem scanCodes_sep :
    ∀ (n : Nat) (p : List Char) (w : Bool) (q : List Char), p.length ≤ n →
      scanCodes w (p ++ ' ' :: '|' :: ' ' :: q)
        = scanCodes w p ++ scanCodes false q := by
  intro n
  induction n with
  | zero =>
    intro p w q hp
    have hp0 : p = [] := List.length_eq_zero.mp (Nat.le_zero.mp hp)
    subst hp0
    rw [List.nil_append, scanCodes_sep_head]
    rfl
  | succ n ih =>
    intro p w q hp
    rcases p with _ | ⟨c, rest⟩
    · rw [List.nil_append, scanCodes_sep_head]
      rfl
    · simp only [List.length_cons] at hp
      cases htc : tryCode w (c :: rest) with
      | none =>
        have happ : tryCode w ((c :: rest) ++ ' ' :: '|' :: ' ' :: q) = none := by
          rw [tryCode_append, htc]
          rfl
        rw [List.cons_append] at happ
        rw [List.cons_append, scanCodes_cons_none happ, scanCodes_cons_none htc]
        exact ih rest (wordChar c) q (by omega)
      | some pr =>
        obtain ⟨m, rem⟩ := pr
        have hlen := tryCode_length htc
        simp only [List.length_cons] at hlen
        have happ : tryCode w ((c :: rest) ++ ' ' :: '|' :: ' ' :: q)
            = some (m, rem ++ ' ' :: '|' :: ' ' :: q) := by
          rw [tryCode_append, htc]
          rfl
        rw [scanCodes_cons_some happ, scanCodes_cons_some htc]
        rw [ih rem true q (by omega)]
        simp

theorem findCodes_joinSep (ps : List String) :
    findCodes (joinSep " | " ps) = (ps.map findCodes).flatten := by
  induction ps with
  | nil => rfl
  | cons x ys ih =>
    rcases ys with _ | ⟨y, ys2⟩
    · show findCodes x = _
      simp
    · rw [joinSep]
      show scanCodes false (x ++ " | " ++ joinSep " | " (y :: ys2)).data = _
      rw [String.data_append, String.data_append]
      rw [show (" | " : String).data = [' ', '|', ' '] from rfl]
      rw [List.append_assoc]
      rw [show ([' ', '|', ' '] : List Char) ++ (joinSep " | " (y :: ys2)).data
          = ' ' :: '|' :: ' ' :: (joinSep " | " (y :: ys2)).data from rfl]
      rw [scanCodes_sep x.data.length x.data false _ le_rfl]
      rw [show scanCodes false (joinSep " | " (y :: ys2)).data
          = findCodes (joinSep " | " (y :: ys2)) from rfl]
      rw [ih]
      simp [findCodes]

/-- C7: the deduplicated agreement-code set (pattern matches pooled
from the joined paragraph text and the PDF-link captions) is invariant
under any permutation of the input paragraph list. -/
theorem c7_codes_permutation_invariant (r r2 : PdfResponse)
    (hperm : r.xpathParaTexts.Perm r2.xpathParaTexts)
    (hpdf : r.cssPdfLinkTexts = r2.cssPdfLinkTexts) :
    (agreementCodesOf r).toFinset = (agreementCodesOf r2).toFinset := by
  have h1 : (paragraphsOf r).Perm (paragraphsOf r2) :=
    (hperm.map pyStrip).filter _
  have h2 : (findCodes (paragraphsTextOf r)).Perm
      (findCodes (paragraphsTextOf r2)) := by
    rw [paragraphsTextOf, paragraphsTextOf, findCodes_joinSep, findCodes_joinSep]
    exact (h1.map findCodes).flatten
  have h3 : (findCodes (paragraphsTextOf r)
        ++ (r.cssPdfLinkTexts.map findCodes).flatten).Perm
      (findCodes (paragraphsTextOf r2)
        ++ (r2.cssPdfLinkTexts.map findCodes).flatten) := by
    rw [hpdf]
    exact h2.append_right _
  rw [agreementCodesOf, agreementCodesOf]
  ext a
  simp only [List.mem_toFinset, List.mem_dedup]
  exact ⟨fun h => h3.mem_iff.mp h, fun h => h3.mem_iff.mpr h⟩

set_option maxRecDepth 4000 in
/-- Witness for C7: two concrete pages with reordered paragraph lists
produce the same code set. -/
theorem c7_codes_permutation_invariant_witness :
    (agreementCodesOf cPdfPermA).toFinset = (agreementCodesOf cPdfPermB).toFinset ∧
      (agreementCodesOf cPdfPermA).toFinset = {"99-123", "12-345", "55-1234"} := by
  refine ⟨c7_codes_permutation_invariant cPdfPermA cPdfPermB (by decide) rfl, ?_⟩
  decide
